import Mathlib

/-!
Verification development for the myDvpn control plane.

Shallow embedding of the Go sources:
* `utils/ip.go` — CIDR-scoped IP allocation (`AllocateClientIP`) and the
  per-pool allocator state machine (`IPAllocator`).
* `base/server/base_node.go` — the directory of coordinators
  (`RequestExitRegion` with its freshness / load filter and load sort).
* the SuperNode stream manager (`RegisterStream`, `UnregisterStream`,
  `GetStream`, `GetStreamsByRole`, `UpdateHeartbeat`) and its handlers
  (`handleAuthRequest`, `handlePingRequest`, `RequestExitPeer`).
* `clientPeer/client/persistent_stream.go` — reconnect backoff.
* `clientPeer/client/unified_peer.go` — exit-mode client management
  (`addClient`, `handleSetupExitCommand`).
* `super/dataplane/wg.go` — relay dataplane (`SetupRelayForClient`).

Machine integers are modelled as `Nat`/`Int`; IPv4 addresses as `Nat`;
Go maps as association lists (key-unique via insert-with-erase); fallible
external calls (WireGuard peer add, stream send) as boolean oracles.
-/

namespace MyDvpn

/-! ### Go map primitives (association lists with unique keys) -/

def mapLookup {α : Type} (m : List (String × α)) (k : String) : Option α :=
  (m.find? (fun e => e.1 == k)).map (fun e => e.2)

def mapErase {α : Type} (m : List (String × α)) (k : String) : List (String × α) :=
  m.filter (fun e => !(e.1 == k))

def mapInsert {α : Type} (k : String) (v : α) (m : List (String × α)) :
    List (String × α) :=
  (k, v) :: mapErase m k

/-! ### `utils/ip.go` : AllocateClientIP

`AllocateClientIP(cidr, usedIPs)` walks the block from its (masked) base
address, skips the network and broadcast addresses, and returns the first
address not in `usedIPs`; it errors when the walk exhausts the block.
The CIDR is modelled by its numeric base `network` and the number of host
bits; the walk enumerates offsets `k < 2 ^ hostBits`. -/

def hostFree (network hostBits : Nat) (used : Finset Nat) (k : Nat) : Bool :=
  !(k == 0) && !(k == 2 ^ hostBits - 1) && !(decide (network + k ∈ used))

def AllocateClientIP (network hostBits : Nat) (used : Finset Nat) : Option Nat :=
  ((List.range (2 ^ hostBits)).find? (hostFree network hostBits used)).map
    (fun k => network + k)

/-! The allocator state machine wrapping `AllocateClientIP`
(`IPAllocator.AllocateIP` marks the result used, `ReleaseIP` unmarks). -/

structure IPPool where
  network : Nat
  hostBits : Nat
  used : Finset Nat
deriving DecidableEq

def IPPool.broadcast (p : IPPool) : Nat :=
  p.network + (2 ^ p.hostBits - 1)

def IPPool.allocateIP (p : IPPool) : Option Nat × IPPool :=
  match AllocateClientIP p.network p.hostBits p.used with
  | some ip => (some ip, { p with used := insert ip p.used })
  | none => (none, p)

def IPPool.releaseIP (p : IPPool) (ip : Nat) : IPPool :=
  { p with used := p.used.erase ip }

inductive PoolOp where
  | alloc : PoolOp
  | release : Nat → PoolOp
deriving DecidableEq

def IPPool.step (p : IPPool) : PoolOp → Option Nat × IPPool
  | .alloc => p.allocateIP
  | .release ip => (none, p.releaseIP ip)

def IPPool.run (p : IPPool) : List PoolOp → IPPool
  | [] => p
  | op :: ops => ((p.step op).2).run ops

/-! ### `base/server/base_node.go` : the directory (BaseNode)

`RequestExitRegion` filters the registered SuperNodes (region equality,
`CurrentLoad < MaxCapacity`, `now - LastHeartbeat < 120`) in map-iteration
order — modelled by the order of the entry list — and, when more than one
candidate remains, sorts them by `CurrentLoad` with the nested
swap-if-greater loops, which is a selection sort. -/

structure SuperNodeInfo where
  supernodeId : String
  region : String
  ipAddress : String
  port : Nat
  currentLoad : Int
  maxCapacity : Int
  lastHeartbeat : Int
deriving DecidableEq

def exitRegionFilter (now : Int) (targetRegion : String)
    (sns : List SuperNodeInfo) : List SuperNodeInfo :=
  sns.filter (fun s =>
    (s.region == targetRegion) && decide (s.currentLoad < s.maxCapacity) &&
      decide (now - s.lastHeartbeat < 120))

/-- One pass of the inner loop `for j := i+1; ...; if cand[i].load > cand[j].load
then swap`: the accumulator is the element currently at position `i`; the
returned list holds the elements left behind at positions `i+1, ...`. -/
def selMin : SuperNodeInfo → List SuperNodeInfo →
    SuperNodeInfo × List SuperNodeInfo
  | x, [] => (x, [])
  | x, y :: ys =>
    if y.currentLoad < x.currentLoad then
      let r := selMin y ys
      (r.1, x :: r.2)
    else
      let r := selMin x ys
      (r.1, y :: r.2)

/-- The outer loop of the swap sort in `RequestExitRegion`; the fuel argument
(instantiated with the list length) only makes the recursion structural. -/
def selSortFuel : Nat → List SuperNodeInfo → List SuperNodeInfo
  | 0, l => l
  | _, [] => []
  | n + 1, x :: xs =>
    let r := selMin x xs
    r.1 :: selSortFuel n r.2

def selSort (l : List SuperNodeInfo) : List SuperNodeInfo :=
  selSortFuel l.length l

/-- Ascending-by-declared-load order on directory entries. -/
def loadLE (a b : SuperNodeInfo) : Prop :=
  a.currentLoad ≤ b.currentLoad

/-- `BaseNode.RequestExitRegion`: rejects an empty region with
`InvalidArgument` (`none`), otherwise filters and sorts (the sort is only
run when more than one candidate was found). -/
def RequestExitRegion (now : Int) (sns : List SuperNodeInfo)
    (targetRegion : String) : Option (List SuperNodeInfo) :=
  if targetRegion = "" then none
  else
    let cands := exitRegionFilter now targetRegion sns
    some (if 1 < cands.length then selSort cands else cands)

/-! ### The SuperNode stream manager

`StreamManager` keeps `streams : map[string]*StreamInfo` keyed by peer id.
`RegisterStream` mints `peerID-<unix>` as the session id, marks any prior
active entry inactive (the object then leaves the map because the new entry
overwrites the key) and stores the new entry. `UnregisterStream` — run by a
stream handler's deferred cleanup — removes whatever entry the map currently
holds for the peer id. -/

structure StreamInfo where
  peerID : String
  role : String
  region : String
  sessionID : String
  lastHeartbeat : Nat
  publicKey : String
  isActive : Bool
  latencyMs : Int
  messagesReceived : Nat
deriving DecidableEq

structure StreamManager where
  streams : List (String × StreamInfo)
deriving DecidableEq

def StreamManager.empty : StreamManager := ⟨[]⟩

def RegisterStream (sm : StreamManager) (peerID role region publicKey : String)
    (nowUnix : Nat) : String × StreamManager :=
  let sessionID := peerID ++ "-" ++ toString nowUnix
  let si : StreamInfo :=
    { peerID := peerID, role := role, region := region, sessionID := sessionID,
      lastHeartbeat := nowUnix, publicKey := publicKey, isActive := true,
      latencyMs := 0, messagesReceived := 0 }
  (sessionID, ⟨mapInsert peerID si sm.streams⟩)

def UnregisterStream (sm : StreamManager) (peerID : String) : StreamManager :=
  ⟨mapErase sm.streams peerID⟩

def GetStream (sm : StreamManager) (peerID : String) : Option StreamInfo :=
  match mapLookup sm.streams peerID with
  | some si => if si.isActive then some si else none
  | none => none

def GetStreamsByRole (sm : StreamManager) (role : String) : List StreamInfo :=
  (sm.streams.filter (fun e => e.2.isActive && (e.2.role == role))).map
    (fun e => e.2)

def UpdateHeartbeat (sm : StreamManager) (peerID : String) (latencyMs : Int)
    (now : Nat) : StreamManager :=
  match GetStream sm peerID with
  | some si =>
    ⟨mapInsert peerID
      { si with
        lastHeartbeat := now
        latencyMs := latencyMs
        messagesReceived := si.messagesReceived + 1 } sm.streams⟩
  | none => sm

/-! ### SuperNode message handlers -/

structure AuthRequest where
  peerId : String
  role : String
  pubkeyB64 : String
  region : String
  signature : String
  nonce : String
deriving DecidableEq

inductive GrpcCode where
  | ok
  | unauthenticated
  | invalidArgument
  | internal
deriving DecidableEq

def validAuthRole (r : String) : Bool :=
  (r == "client") || (r == "exit") || (r == "hybrid")

/-- `SuperNode.handleAuthRequest`: role validity is checked first, then the
signature (`verify` stands for the Ed25519 check on the declared key), then
the stream is registered. Any error propagates to the caller. -/
def handleAuthRequest (verify : AuthRequest → Bool) (req : AuthRequest)
    (sm : StreamManager) (nowUnix : Nat) :
    Except String (String × String × StreamManager) :=
  if !(validAuthRole req.role) then
    .error ("invalid role: " ++ req.role)
  else if !(verify req) then
    .error "signature verification failed"
  else
    let r := RegisterStream sm req.peerId req.role req.region req.pubkeyB64 nowUnix
    .ok (req.peerId, r.1, r.2)

/-- The `AuthRequest` arm of `SuperNode.PersistentControlStream`: every
authentication error is surfaced as `status.Errorf(codes.Unauthenticated, ...)`
and terminates the stream. -/
def authStreamResult (verify : AuthRequest → Bool) (req : AuthRequest)
    (sm : StreamManager) (nowUnix : Nat) :
    Except GrpcCode (String × String × StreamManager) :=
  match handleAuthRequest verify req sm nowUnix with
  | .error _ => .error GrpcCode.unauthenticated
  | .ok x => .ok x

structure PingRequest where
  timestamp : Int
  peerId : String
deriving DecidableEq

structure PongResponse where
  timestamp : Int
  originalTimestamp : Int
  peerId : String
deriving DecidableEq

/-- `SuperNode.handlePingRequest`: latency is `now.UnixMilli() - req.Timestamp`,
the heartbeat is stamped through the stream manager, and the pong echoes the
request's timestamp. -/
def handlePingRequest (sm : StreamManager) (req : PingRequest) (nowMs : Int)
    (now : Nat) : StreamManager × PongResponse :=
  let latencyMs := nowMs - req.timestamp
  (UpdateHeartbeat sm req.peerId latencyMs now,
   { timestamp := nowMs, originalTimestamp := req.timestamp,
     peerId := req.peerId })

/-! ### `SuperNode.RequestExitPeer` (the remote half of exit allocation) -/

inductive CommandType where
  | SETUP_EXIT
  | ROTATE_PEER
  | RELAY_SETUP
  | DISCONNECT
deriving DecidableEq

structure Command where
  commandId : String
  type : CommandType
  payload : List (String × String)
deriving DecidableEq

structure CommandResponse where
  commandId : String
  success : Bool
  message : String
  result : List (String × String)
deriving DecidableEq

structure ExitPeerInfo where
  peerId : String
  publicKey : String
  endpoint : String
  allowedIps : List String
  supportsDirectConnection : Bool
deriving DecidableEq

structure RequestExitPeerResponse where
  success : Bool
  message : String
  exitPeer : Option ExitPeerInfo
  sessionId : String
deriving DecidableEq

/-- SuperNode state as seen by `RequestExitPeer`: the stream manager plus the
log of `CommandResponse` messages the control stream has handed to
`handleCommandResponse` so far (paired with the sending peer). -/
structure SuperNodeState where
  sm : StreamManager
  receivedResponses : List (String × CommandResponse)
deriving DecidableEq

/-- `SuperNode.RequestExitPeer`: picks the first exit-or-hybrid stream, sends
it a `SETUP_EXIT` command (`sendOk` stands for `stream.Send` succeeding) and
replies immediately. The reply never consults `receivedResponses`. The issued
command is returned alongside the response so theorems can talk about it. -/
def RequestExitPeer (st : SuperNodeState) (sendOk : String → Bool)
    (clientId : String) (nowUnix nowNano : Nat) (publicIP : String)
    (relayPort : Nat) : RequestExitPeerResponse × Option Command :=
  match GetStreamsByRole st.sm "exit" ++ GetStreamsByRole st.sm "hybrid" with
  | [] => (⟨false, "No exit peers available", none, ""⟩, none)
  | selectedPeer :: _ =>
    let sessionID := clientId ++ "-" ++ selectedPeer.peerID ++ "-" ++
      toString nowUnix
    let setupCommand : Command :=
      { commandId := "setup-exit-" ++ toString nowNano,
        type := CommandType.SETUP_EXIT,
        payload := [("client_id", clientId), ("session_id", sessionID),
          ("allowed_ips", "0.0.0.0/0")] }
    if sendOk selectedPeer.peerID then
      (⟨true, "Exit peer allocated successfully",
        some ⟨selectedPeer.peerID, selectedPeer.publicKey,
          publicIP ++ ":" ++ toString relayPort, ["0.0.0.0/0"], false⟩,
        sessionID⟩, some setupCommand)
    else
      (⟨false, "Failed to setup exit peer", none, ""⟩, some setupCommand)

/-! ### `clientPeer/client/persistent_stream.go` : reconnect backoff

`reconnectLoop` sleeps `reconnectDelay` after a failed `connect()` and then
doubles the delay while it is still below 60 s; a successful reconnection
resets it to the initial 5 s. -/

def initialReconnectDelay : Nat := 5

def nextReconnectDelay (connected : Bool) (d : Nat) : Nat :=
  if connected then 5
  else if d < 60 then d * 2 else d

def reconnectDelayAfter (outcomes : List Bool) : Nat :=
  outcomes.foldl (fun d o => nextReconnectDelay o d) initialReconnectDelay

/-! ### `clientPeer/client/unified_peer.go` : exit-mode client management

`UnifiedPeer.addClient` rejects an existing client id, allocates an address
from the hardcoded `10.9.0.0/24` pool, adds the WireGuard peer (`wgAddOk`
stands for `wgManager.AddPeer` succeeding) and records the client; on a
peer-add failure the allocated address is released. State that the Go code
mutates in place (the allocator and the client map) is threaded through the
result. -/

inductive PeerMode where
  | client
  | exit
  | hybrid
deriving DecidableEq

structure ClientInfo where
  clientID : String
  publicKey : String
  allocatedIP : Nat
  allowedIPs : List String
  sessionID : String
  connectedAt : Nat
deriving DecidableEq

structure UPState where
  mode : PeerMode
  activeClients : List (String × ClientInfo)
  pool : IPPool
deriving DecidableEq

def addClient (wgAddOk : Bool) (st : UPState)
    (clientID clientPubKey sessionID : String) (now : Nat) :
    Except String ClientInfo × UPState :=
  if (mapLookup st.activeClients clientID).isSome then
    (.error ("client " ++ clientID ++ " already exists"), st)
  else
    match st.pool.allocateIP with
    | (some ip, pool1) =>
      if wgAddOk then
        let clientInfo : ClientInfo :=
          { clientID := clientID, publicKey := clientPubKey, allocatedIP := ip,
            allowedIPs := ["0.0.0.0/0"], sessionID := sessionID,
            connectedAt := now }
        (.ok clientInfo,
         { st with
           pool := pool1
           activeClients := mapInsert clientID clientInfo st.activeClients })
      else
        (.error "failed to add peer to WireGuard",
         { st with pool := pool1.releaseIP ip })
    | (none, _) => (.error "failed to allocate IP", st)

/-- `UnifiedPeer.handleSetupExitCommand`: requires exit or hybrid mode and the
`client_id` / `client_pubkey` / `session_id` payload keys (a missing Go map
key reads as `""`), then delegates to `addClient`, converting its error into
a failure `CommandResponse`. -/
def handleSetupExitCommand (wgAddOk : Bool) (st : UPState) (cmd : Command)
    (now : Nat) : CommandResponse × UPState :=
  if !(st.mode == PeerMode.exit || st.mode == PeerMode.hybrid) then
    (⟨cmd.commandId, false, "Peer is not in exit mode", []⟩, st)
  else
    let clientID := (mapLookup cmd.payload "client_id").getD ""
    let clientPubKey := (mapLookup cmd.payload "client_pubkey").getD ""
    let sessionID := (mapLookup cmd.payload "session_id").getD ""
    if clientID == "" || clientPubKey == "" || sessionID == "" then
      (⟨cmd.commandId, false, "Missing required parameters", []⟩, st)
    else
      match addClient wgAddOk st clientID clientPubKey sessionID now with
      | (.ok _, st1) =>
        (⟨cmd.commandId, true, "Client added successfully", []⟩, st1)
      | (.error e, st1) =>
        (⟨cmd.commandId, false, "Failed to add client: " ++ e, []⟩, st1)

/-! ### `super/dataplane/wg.go` : relay dataplane -/

structure RelayPeerInfo where
  peerID : String
  publicKey : String
  clientID : String
  allocatedIP : Nat
  allowedIPs : List String
  sessionID : String
deriving DecidableEq

structure WDState where
  activePeers : List (String × RelayPeerInfo)
  pool : IPPool
deriving DecidableEq

/-- `WireGuardDataplane.SetupRelayForClient`: an existing relay for the client
id is returned as is; otherwise an address is allocated from the relay pool,
the WireGuard peer is added (`wgAddOk` — with release of the address on
failure) and the relay is recorded under the key `relay-<clientID>`. -/
def SetupRelayForClient (wgAddOk : Bool) (st : WDState)
    (clientID clientPublicKey sessionID : String) :
    Option RelayPeerInfo × WDState :=
  match st.activePeers.find? (fun e => e.2.clientID == clientID) with
  | some e => (some e.2, st)
  | none =>
    match st.pool.allocateIP with
    | (some ip, pool1) =>
      if wgAddOk then
        let peerInfo : RelayPeerInfo :=
          { peerID := "relay-" ++ clientID, publicKey := clientPublicKey,
            clientID := clientID, allocatedIP := ip,
            allowedIPs := [toString ip ++ "/32"], sessionID := sessionID }
        (some peerInfo,
         { st with
           pool := pool1
           activePeers :=
             mapInsert ("relay-" ++ clientID) peerInfo st.activePeers })
      else
        (none, { st with pool := pool1.releaseIP ip })
    | (none, _) => (none, st)

def poolW : IPPool := ⟨0, 2, ∅⟩

def badRoleReq : AuthRequest :=
  ⟨"p1", "supernode", "pk", "r1", "sig", "nonce"⟩

def smPing : StreamManager :=
  (RegisterStream StreamManager.empty "p1" "client" "r1" "pk" 0).2

def siPing : StreamInfo :=
  ⟨"p1", "client", "r1", "p1-0", 0, "pk", true, 0, 0⟩

def relayPW : RelayPeerInfo :=
  ⟨"relay-c1", "pkc", "c1", 5, ["5/32"], "s1"⟩

def wdStateW : WDState := ⟨[("relay-c1", relayPW)], ⟨0, 2, {5}⟩⟩

def snB : SuperNodeInfo := ⟨"b", "us", "10.0.0.2", 50052, 0, 10, 0⟩

def snA : SuperNodeInfo := ⟨"a", "us", "10.0.0.1", 50052, 0, 10, 0⟩

def snUS : List SuperNodeInfo := [snB, snA]

def snX : SuperNodeInfo := ⟨"x", "us", "10.0.0.3", 50052, 2, 10, 0⟩

def snY : SuperNodeInfo := ⟨"y", "us", "10.0.0.4", 50052, 2, 10, 0⟩

def snZ : SuperNodeInfo := ⟨"z", "us", "10.0.0.5", 50052, 1, 10, 0⟩

def snUS3 : List SuperNodeInfo := [snX, snY, snZ]

/-- The ordering the claim asserts for the candidates list: ascending load
with an ascending-identifier tie-break. -/
def claimOrder (a b : SuperNodeInfo) : Prop :=
  a.currentLoad < b.currentLoad ∨
    (a.currentLoad = b.currentLoad ∧ a.supernodeId ≤ b.supernodeId)

def ipv4 (a b c d : Nat) : Nat :=
  ((a * 256 + b) * 256 + c) * 256 + d

def upExit : UPState := ⟨PeerMode.exit, [], ⟨ipv4 10 9 0 0, 8, ∅⟩⟩

def setupCmd : Command :=
  ⟨"cmd-1", CommandType.SETUP_EXIT,
    [("client_id", "c1"), ("client_pubkey", "k1"), ("session_id", "s1")]⟩

def ciExisting : ClientInfo :=
  ⟨"c1", "k1", ipv4 10 9 0 1, ["0.0.0.0/0"], "s1", 0⟩

def upExitB : UPState :=
  ⟨PeerMode.exit, [("c1", ciExisting)], ⟨ipv4 10 9 0 0, 8, {ipv4 10 9 0 1}⟩⟩

def smExit : StreamManager :=
  (RegisterStream StreamManager.empty "e1" "exit" "us" "pkE" 0).2

def snStateC4 : SuperNodeState := ⟨smExit, []⟩

def siExit : StreamInfo := ⟨"e1", "exit", "us", "e1-0", 0, "pkE", true, 0, 0⟩

def wdEmpty : WDState := ⟨[], ⟨0, 2, ∅⟩⟩

def smReg1 : StreamManager :=
  (RegisterStream StreamManager.empty "p" "client" "r1" "pk1" 100).2

def smReg2 : StreamManager :=
  (RegisterStream smReg1 "p" "client" "r1" "pk2" 200).2

theorem mapLookup_insert_self {α : Type} (k : String) (v : α)
    (m : List (String × α)) : mapLookup (mapInsert k v m) k = some v := by
  simp [mapLookup, mapInsert, List.find?]

theorem mapLookup_erase_self {α : Type} (m : List (String × α)) (k : String) :
    mapLookup (mapErase m k) k = none := by
  have hnone : List.find? (fun e => e.1 == k)
      (List.filter (fun e => !(e.1 == k)) m) = none := by
    rw [List.find?_eq_none]
    intro e he
    have h2 := (List.mem_filter.mp he).2
    simpa using h2
  simp [mapLookup, mapErase, hnone]

theorem AllocateClientIP_some {network hostBits : Nat} {used : Finset Nat}
    {ip : Nat} (h : AllocateClientIP network hostBits used = some ip) :
    ip ≠ network ∧ ip ≠ network + (2 ^ hostBits - 1) ∧ ip ∉ used := by
  unfold AllocateClientIP at h
  rw [Option.map_eq_some'] at h
  obtain ⟨k, hk, rfl⟩ := h
  have hp := List.find?_some hk
  simp only [hostFree, Bool.and_eq_true, Bool.not_eq_true', beq_eq_false_iff_ne,
    decide_eq_false_iff_not] at hp
  obtain ⟨⟨h0, hb⟩, hmem⟩ := hp
  refine ⟨?_, ?_, hmem⟩
  · intro hcon
    exact h0 (by omega)
  · intro hcon
    exact hb (Nat.add_left_cancel hcon)

theorem AllocateClientIP_none {network hostBits : Nat} {used : Finset Nat} :
    AllocateClientIP network hostBits used = none ↔
      ∀ k, k < 2 ^ hostBits → k ≠ 0 → k ≠ 2 ^ hostBits - 1 →
        network + k ∈ used := by
  unfold AllocateClientIP
  rw [Option.map_eq_none', List.find?_eq_none]
  constructor
  · intro h k hk h0 hb
    by_contra hnot
    exact h k (List.mem_range.mpr hk) (by simp [hostFree, h0, hb, hnot])
  · intro h k hk hfree
    simp only [hostFree, Bool.and_eq_true, Bool.not_eq_true', beq_eq_false_iff_ne,
      decide_eq_false_iff_not] at hfree
    obtain ⟨⟨h0, hb⟩, hmem⟩ := hfree
    exact hmem (h k (List.mem_range.mp hk) h0 hb)

theorem IPPool.allocateIP_fst_some {p : IPPool} {ip : Nat}
    (h : p.allocateIP.1 = some ip) :
    AllocateClientIP p.network p.hostBits p.used = some ip ∧
      p.allocateIP.2.used = insert ip p.used := by
  unfold IPPool.allocateIP at h ⊢
  cases hA : AllocateClientIP p.network p.hostBits p.used with
  | none => simp [hA] at h
  | some j =>
    simp only [hA] at h ⊢
    cases h
    exact ⟨rfl, rfl⟩

theorem IPPool.step_network (p : IPPool) (op : PoolOp) :
    (p.step op).2.network = p.network := by
  cases op with
  | alloc =>
    unfold IPPool.step IPPool.allocateIP
    cases AllocateClientIP p.network p.hostBits p.used <;> rfl
  | release ip => rfl

theorem IPPool.step_hostBits (p : IPPool) (op : PoolOp) :
    (p.step op).2.hostBits = p.hostBits := by
  cases op with
  | alloc =>
    unfold IPPool.step IPPool.allocateIP
    cases AllocateClientIP p.network p.hostBits p.used <;> rfl
  | release ip => rfl

theorem IPPool.step_mem_used {p : IPPool} {ip : Nat} (hip : ip ∈ p.used)
    (op : PoolOp) (hop : op ≠ PoolOp.release ip) : ip ∈ (p.step op).2.used := by
  cases op with
  | alloc =>
    unfold IPPool.step IPPool.allocateIP
    cases AllocateClientIP p.network p.hostBits p.used with
    | none => exact hip
    | some j => exact Finset.mem_insert_of_mem hip
  | release j =>
    have hne : j ≠ ip := by
      intro h
      exact hop (by rw [h])
    exact Finset.mem_erase.mpr ⟨fun h => hne h.symm, hip⟩

theorem IPPool.run_mem_used {p : IPPool} {ip : Nat} (hip : ip ∈ p.used)
    (ops : List PoolOp) (hops : PoolOp.release ip ∉ ops) :
    ip ∈ (p.run ops).used := by
  induction ops generalizing p with
  | nil => exact hip
  | cons op rest ih =>
    have h1 : op ≠ PoolOp.release ip := fun h => hops (h ▸ List.mem_cons_self op rest)
    have h2 : PoolOp.release ip ∉ rest := fun h => hops (List.mem_cons_of_mem op h)
    exact ih (IPPool.step_mem_used hip op h1) h2

theorem selMin_snd_length (x : SuperNodeInfo) (l : List SuperNodeInfo) :
    (selMin x l).2.length = l.length := by
  induction l generalizing x with
  | nil => rfl
  | cons y ys ih =>
    unfold selMin
    by_cases h : y.currentLoad < x.currentLoad <;> simp [h, ih]

theorem selMin_perm (x : SuperNodeInfo) (l : List SuperNodeInfo) :
    List.Perm ((selMin x l).1 :: (selMin x l).2) (x :: l) := by
  induction l generalizing x with
  | nil => rfl
  | cons y ys ih =>
    unfold selMin
    by_cases h : y.currentLoad < x.currentLoad
    · simp only [if_pos h]
      exact (List.Perm.swap x (selMin y ys).1 (selMin y ys).2).trans
        ((ih y).cons x)
    · simp only [if_neg h]
      exact ((List.Perm.swap y (selMin x ys).1 (selMin x ys).2).trans
        ((ih x).cons y)).trans (List.Perm.swap x y ys)

theorem selMin_le (x : SuperNodeInfo) (l : List SuperNodeInfo) :
    (selMin x l).1.currentLoad ≤ x.currentLoad ∧
      ∀ z ∈ (selMin x l).2, (selMin x l).1.currentLoad ≤ z.currentLoad := by
  induction l generalizing x with
  | nil => exact ⟨le_refl _, by simp [selMin]⟩
  | cons y ys ih =>
    unfold selMin
    by_cases h : y.currentLoad < x.currentLoad
    · simp only [if_pos h]
      obtain ⟨h1, h2⟩ := ih y
      refine ⟨le_of_lt (lt_of_le_of_lt h1 h), ?_⟩
      intro z hz
      rcases List.mem_cons.mp hz with rfl | hz
      · exact le_of_lt (lt_of_le_of_lt h1 h)
      · exact h2 z hz
    · simp only [if_neg h]
      obtain ⟨h1, h2⟩ := ih x
      refine ⟨h1, ?_⟩
      intro z hz
      rcases List.mem_cons.mp hz with rfl | hz
      · exact le_trans h1 (le_of_not_lt h)
      · exact h2 z hz

theorem selSortFuel_perm :
    ∀ (n : Nat) (l : List SuperNodeInfo), l.length ≤ n →
      List.Perm (selSortFuel n l) l := by
  intro n
  induction n with
  | zero =>
    intro l hl
    simp [selSortFuel]
  | succ n ih =>
    intro l hl
    cases l with
    | nil => simp [selSortFuel]
    | cons x xs =>
      have hlen : (selMin x xs).2.length ≤ n := by
        rw [selMin_snd_length]
        exact Nat.le_of_succ_le_succ hl
      exact ((ih (selMin x xs).2 hlen).cons (selMin x xs).1).trans
        (selMin_perm x xs)

theorem selSort_perm (l : List SuperNodeInfo) : List.Perm (selSort l) l :=
  selSortFuel_perm l.length l (le_refl _)

theorem selSortFuel_sorted :
    ∀ (n : Nat) (l : List SuperNodeInfo), l.length ≤ n →
      (selSortFuel n l).Sorted loadLE := by
  intro n
  induction n with
  | zero =>
    intro l hl
    have : l = [] := List.eq_nil_of_length_eq_zero (Nat.le_zero.mp hl)
    subst this
    exact List.sorted_nil
  | succ n ih =>
    intro l hl
    cases l with
    | nil => exact List.sorted_nil
    | cons x xs =>
      have hlen : (selMin x xs).2.length ≤ n := by
        rw [selMin_snd_length]
        exact Nat.le_of_succ_le_succ hl
      refine List.sorted_cons.mpr ⟨?_, ih (selMin x xs).2 hlen⟩
      intro z hz
      have hz2 : z ∈ (selMin x xs).2 :=
        (selSortFuel_perm n (selMin x xs).2 hlen).mem_iff.mp hz
      exact (selMin_le x xs).2 z hz2

theorem selSort_sorted (l : List SuperNodeInfo) : (selSort l).Sorted loadLE :=
  selSortFuel_sorted l.length l (le_refl _)

theorem RequestExitRegion_eq (now : Int) (sns : List SuperNodeInfo)
    (r : String) (h : r ≠ "") :
    RequestExitRegion now sns r =
      some (if 1 < (exitRegionFilter now r sns).length then
        selSort (exitRegionFilter now r sns) else exitRegionFilter now r sns) := by
  simp [RequestExitRegion, h]

theorem reconnectDelay_mem (outcomes : List Bool) :
    reconnectDelayAfter outcomes ∈ ([5, 10, 20, 40, 80] : List Nat) := by
  have step : ∀ (d : Nat) (o : Bool), d ∈ ([5, 10, 20, 40, 80] : List Nat) →
      nextReconnectDelay o d ∈ ([5, 10, 20, 40, 80] : List Nat) := by
    intro d o hd
    cases o with
    | true => simp [nextReconnectDelay]
    | false =>
      fin_cases hd <;> simp [nextReconnectDelay]
  have main : ∀ (l : List Bool) (d : Nat),
      d ∈ ([5, 10, 20, 40, 80] : List Nat) →
      l.foldl (fun d o => nextReconnectDelay o d) d ∈
        ([5, 10, 20, 40, 80] : List Nat) := by
    intro l
    induction l with
    | nil => intro d hd; exact hd
    | cons o rest ih => intro d hd; exact ih _ (step d o hd)
  exact main outcomes initialReconnectDelay (by simp [initialReconnectDelay])

/-- Rollback helper: releasing a freshly allocated address restores the pool. -/
theorem allocate_release_roundtrip {p : IPPool} {ip : Nat}
    (h : p.allocateIP.1 = some ip) :
    (p.allocateIP.2).releaseIP ip = p := by
  obtain ⟨hA, hused⟩ := IPPool.allocateIP_fst_some h
  have hfresh : ip ∉ p.used := (AllocateClientIP_some hA).2.2
  have hnet : p.allocateIP.2.network = p.network := by
    unfold IPPool.allocateIP
    rw [hA]
  have hhb : p.allocateIP.2.hostBits = p.hostBits := by
    unfold IPPool.allocateIP
    rw [hA]
  unfold IPPool.releaseIP
  cases p with
  | mk network hostBits used =>
    simp only at hnet hhb hused hfresh
    rw [hnet, hhb, hused]
    simp [Finset.erase_insert hfresh]

theorem IPPool.allocateIP_fst_none {p : IPPool} :
    p.allocateIP.1 = none ↔
      AllocateClientIP p.network p.hostBits p.used = none := by
  unfold IPPool.allocateIP
  cases AllocateClientIP p.network p.hostBits p.used <;> simp

/-! ## Claim theorems -/

/-- C5 counterexample: the reconnect delay is claimed never to exceed 60 s,
but four consecutive connection failures drive it from 5 s to 80 s
(5 → 10 → 20 → 40 → 80, because the code doubles whenever the delay is still
below 60 s). -/
theorem reconnectDelay_exceeds_sixty :
    reconnectDelayAfter [false, false, false, false] = 80 ∧
      60 < reconnectDelayAfter [false, false, false, false] := by
  decide

/-- C5 amended: the reconnect delay starts at 5 s, doubles on each consecutive
failure while it is still below 60 s (so its ceiling is 80 s, not 60 s), stays
put once at or above 60 s, and is reset to 5 s on a successful reconnection. -/
theorem reconnectDelay_capped_at_eighty :
    initialReconnectDelay = 5
    ∧ (∀ outcomes : List Bool, reconnectDelayAfter outcomes ≤ 80)
    ∧ (∀ d : Nat, d < 60 → nextReconnectDelay false d = d * 2)
    ∧ (∀ d : Nat, 60 ≤ d → nextReconnectDelay false d = d)
    ∧ (∀ d : Nat, nextReconnectDelay true d = 5) := by
  refine ⟨rfl, ?_, ?_, ?_, ?_⟩
  · intro outcomes
    have h := reconnectDelay_mem outcomes
    simp only [List.mem_cons, List.not_mem_nil, or_false] at h
    omega
  · intro d hd
    simp [nextReconnectDelay, hd]
  · intro d hd
    simp [nextReconnectDelay, Nat.not_lt.mpr hd]
  · intro d
    simp [nextReconnectDelay]

/-- C5 witness: the capped-backoff theorem applied at concrete inputs. -/
theorem reconnectDelay_capped_at_eighty_witness :
    reconnectDelayAfter [false, false, false, false, false] ≤ 80
    ∧ nextReconnectDelay false 20 = 20 * 2
    ∧ nextReconnectDelay false 80 = 80
    ∧ nextReconnectDelay true 80 = 5 := by
  obtain ⟨-, h2, h3, h4, h5⟩ := reconnectDelay_capped_at_eighty
  exact ⟨h2 _, h3 20 (by decide), h4 80 (by decide), h5 80⟩

/-- C6: an allocation never returns the pool's network address, its broadcast
address, or an address in the used-set; across any later operation sequence
that does not release the address it is never returned a second time; and
allocation reports exhaustion exactly when every non-network non-broadcast
address of the block is used. -/
theorem allocateIP_fresh_and_exhaustion (p : IPPool) (ops : List PoolOp)
    (ip : Nat) (h1 : p.allocateIP.1 = some ip)
    (h2 : PoolOp.release ip ∉ ops) :
    (ip ≠ p.network ∧ ip ≠ p.broadcast ∧ ip ∉ p.used)
    ∧ ((p.allocateIP.2.run ops).allocateIP.1 ≠ some ip)
    ∧ (∀ q : IPPool, q.allocateIP.1 = none ↔
        ∀ k, k < 2 ^ q.hostBits → k ≠ 0 → k ≠ 2 ^ q.hostBits - 1 →
          q.network + k ∈ q.used) := by
  obtain ⟨hA, hused⟩ := IPPool.allocateIP_fst_some h1
  obtain ⟨hn, hb, hfresh⟩ := AllocateClientIP_some hA
  refine ⟨⟨hn, hb, hfresh⟩, ?_, ?_⟩
  · intro hcon
    have hmem : ip ∈ (p.allocateIP.2.run ops).used := by
      refine IPPool.run_mem_used ?_ ops h2
      rw [hused]
      exact Finset.mem_insert_self ip p.used
    obtain ⟨hA2, -⟩ := IPPool.allocateIP_fst_some hcon
    exact (AllocateClientIP_some hA2).2.2 hmem
  · intro q
    rw [IPPool.allocateIP_fst_none]
    exact AllocateClientIP_none

/-- C6 witness: the allocation-safety theorem applied to a fresh 4-address
pool, allocating twice. -/
theorem allocateIP_fresh_and_exhaustion_witness :
    ((1 : Nat) ≠ poolW.network ∧ (1 : Nat) ≠ poolW.broadcast ∧
      (1 : Nat) ∉ poolW.used)
    ∧ ((poolW.allocateIP.2.run [PoolOp.alloc]).allocateIP.1 ≠ some 1)
    ∧ (∀ q : IPPool, q.allocateIP.1 = none ↔
        ∀ k, k < 2 ^ q.hostBits → k ≠ 0 → k ≠ 2 ^ q.hostBits - 1 →
          q.network + k ∈ q.used) :=
  allocateIP_fresh_and_exhaustion poolW [PoolOp.alloc] 1 (by decide) (by decide)

/-- C7 counterexample: an `AuthRequest` declaring the non-permitted role
"supernode" terminates the stream with `Unauthenticated`, not with the
`InvalidArgument` class the claim reserves for malformed input. -/
theorem authStream_invalid_role_counterexample :
    authStreamResult (fun _ => true) badRoleReq StreamManager.empty 0 =
      Except.error GrpcCode.unauthenticated
    ∧ GrpcCode.unauthenticated ≠ GrpcCode.invalidArgument := by
  constructor
  · rfl
  · decide

/-- C7 amended: a declared role outside {client, exit, hybrid} makes
authentication fail and the stream handler terminates the stream with
`Unauthenticated` — the same error class as a signature failure — regardless
of the signature check. -/
theorem authStream_invalid_role_unauthenticated (verify : AuthRequest → Bool)
    (req : AuthRequest) (sm : StreamManager) (nowUnix : Nat)
    (h : validAuthRole req.role = false) :
    authStreamResult verify req sm nowUnix =
      Except.error GrpcCode.unauthenticated := by
  unfold authStreamResult handleAuthRequest
  simp [h]

/-- C7 witness: the invalid-role theorem applied to the "supernode" request. -/
theorem authStream_invalid_role_unauthenticated_witness :
    authStreamResult (fun _ => false) badRoleReq StreamManager.empty 5 =
      Except.error GrpcCode.unauthenticated :=
  authStream_invalid_role_unauthenticated (fun _ => false) badRoleReq
    StreamManager.empty 5 (by decide)

theorem GetStream_eq_some {sm : StreamManager} {p : String} {si : StreamInfo}
    (h : GetStream sm p = some si) :
    mapLookup sm.streams p = some si ∧ si.isActive = true := by
  unfold GetStream at h
  cases hl : mapLookup sm.streams p with
  | none =>
    rw [hl] at h
    exact absurd h (by simp)
  | some t =>
    rw [hl] at h
    by_cases ht : t.isActive
    · simp only [if_pos ht] at h
      obtain rfl := Option.some.inj h
      exact ⟨rfl, ht⟩
    · simp [ht] at h

/-- C8: a ping carrying client timestamp `t` produces a pong whose original
timestamp is `t` (and whose peer id and server timestamp are echoed from the
request and the receive time), and handling it re-stamps the session's
heartbeat to the receive time and its latency estimate to
`server_recv_ms − t`. -/
theorem handlePingRequest_echo_and_heartbeat (sm : StreamManager)
    (req : PingRequest) (nowMs : Int) (now : Nat) (si : StreamInfo)
    (h : GetStream sm req.peerId = some si) :
    (handlePingRequest sm req nowMs now).2.originalTimestamp = req.timestamp
    ∧ (handlePingRequest sm req nowMs now).2.peerId = req.peerId
    ∧ (handlePingRequest sm req nowMs now).2.timestamp = nowMs
    ∧ GetStream (handlePingRequest sm req nowMs now).1 req.peerId =
        some { si with
          lastHeartbeat := now
          latencyMs := nowMs - req.timestamp
          messagesReceived := si.messagesReceived + 1 } := by
  obtain ⟨-, hact⟩ := GetStream_eq_some h
  refine ⟨rfl, rfl, rfl, ?_⟩
  unfold handlePingRequest UpdateHeartbeat
  rw [h]
  unfold GetStream
  rw [mapLookup_insert_self]
  simp [hact]

/-- C8 witness: the ping theorem applied to a freshly registered session. -/
theorem handlePingRequest_echo_and_heartbeat_witness :
    (handlePingRequest smPing ⟨7, "p1"⟩ 50 200).2.originalTimestamp = 7
    ∧ (handlePingRequest smPing ⟨7, "p1"⟩ 50 200).2.peerId = "p1"
    ∧ (handlePingRequest smPing ⟨7, "p1"⟩ 50 200).2.timestamp = 50
    ∧ GetStream (handlePingRequest smPing ⟨7, "p1"⟩ 50 200).1 "p1" =
        some { siPing with
          lastHeartbeat := 200
          latencyMs := 50 - 7
          messagesReceived := siPing.messagesReceived + 1 } :=
  handlePingRequest_echo_and_heartbeat smPing ⟨7, "p1"⟩ 50 200 siPing
    (by decide)

/-- C10: a repeated `SetupRelayForClient` for a client id that already has an
active relay returns the existing `PeerInfo` and changes nothing — no new IP
allocation and no additional WireGuard peer. -/
theorem SetupRelayForClient_idempotent (wgAddOk : Bool) (st : WDState)
    (clientID clientPublicKey sessionID : String) (k : String)
    (p : RelayPeerInfo)
    (h : st.activePeers.find? (fun e => e.2.clientID == clientID) =
      some (k, p)) :
    SetupRelayForClient wgAddOk st clientID clientPublicKey sessionID =
      (some p, st) := by
  unfold SetupRelayForClient
  rw [h]

/-- C10 witness: the idempotence theorem applied to a dataplane that already
relays for client "c1". -/
theorem SetupRelayForClient_idempotent_witness :
    SetupRelayForClient false wdStateW "c1" "otherKey" "s2" =
      (some relayPW, wdStateW) :=
  SetupRelayForClient_idempotent false wdStateW "c1" "otherKey" "s2"
    "relay-c1" relayPW (by decide)

theorem mem_exitRegionFilter {now : Int} {r : String}
    {sns : List SuperNodeInfo} {s : SuperNodeInfo} :
    s ∈ exitRegionFilter now r sns ↔
      s ∈ sns ∧ s.region = r ∧ s.currentLoad < s.maxCapacity ∧
        now - s.lastHeartbeat < 120 := by
  simp [exitRegionFilter, List.mem_filter, and_assoc]

theorem sorted_of_short {l : List SuperNodeInfo} (h : l.length ≤ 1) :
    l.Sorted loadLE := by
  cases l with
  | nil => exact List.sorted_nil
  | cons x xs =>
    cases xs with
    | nil => exact List.sorted_singleton x
    | cons y ys => simp at h

/-- C2 amended: for a nonempty region argument, the candidates query returns
exactly the registered coordinators whose region matches, whose heartbeat is
fresher than 120 s and whose load is strictly below capacity, sorted ascending
by declared load; there is no coordinator-identifier tie-break, and the
relative order of equal-load candidates is left unspecified (the eager swap
sort does not even preserve the registry's iteration order). -/
theorem RequestExitRegion_filter_and_load_sort (now : Int)
    (sns : List SuperNodeInfo) (r : String) (h : r ≠ "") :
    ∃ l, RequestExitRegion now sns r = some l
      ∧ List.Perm l (exitRegionFilter now r sns)
      ∧ l.Sorted loadLE
      ∧ (∀ s : SuperNodeInfo, s ∈ l ↔ s ∈ sns ∧ s.region = r ∧
          s.currentLoad < s.maxCapacity ∧ now - s.lastHeartbeat < 120) := by
  rw [RequestExitRegion_eq now sns r h]
  by_cases hlen : 1 < (exitRegionFilter now r sns).length
  · refine ⟨selSort (exitRegionFilter now r sns), by rw [if_pos hlen],
      selSort_perm _, selSort_sorted _, ?_⟩
    intro s
    rw [(selSort_perm _).mem_iff]
    exact mem_exitRegionFilter
  · refine ⟨exitRegionFilter now r sns, by rw [if_neg hlen],
      List.Perm.refl _, sorted_of_short (by omega), ?_⟩
    intro s
    exact mem_exitRegionFilter

/-- C2 witness: the filter-and-sort theorem applied to the two-entry registry. -/
theorem RequestExitRegion_filter_and_load_sort_witness :
    ∃ l, RequestExitRegion 0 snUS "us" = some l
      ∧ List.Perm l (exitRegionFilter 0 "us" snUS)
      ∧ l.Sorted loadLE
      ∧ (∀ s : SuperNodeInfo, s ∈ l ↔ s ∈ snUS ∧ s.region = "us" ∧
          s.currentLoad < s.maxCapacity ∧ (0 : Int) - s.lastHeartbeat < 120) :=
  RequestExitRegion_filter_and_load_sort 0 snUS "us" (by decide)

/-- C2 counterexample: with two equal-load same-region coordinators "b" and
"a" in this registry order, the query returns them in registry order, which
is not ascending by coordinator identifier — the claimed tie-break does not
exist in the code. Moreover the order of equal-load candidates is not even
the registry's iteration order: with loads [2, 2, 1] the eager swap sort
displaces "x" behind "y", returning [z, y, x]. -/
theorem RequestExitRegion_no_id_tiebreak :
    RequestExitRegion 0 snUS "us" = some [snB, snA]
    ∧ snB.currentLoad = snA.currentLoad
    ∧ ¬ List.Sorted claimOrder [snB, snA]
    ∧ RequestExitRegion 0 snUS3 "us" = some [snZ, snY, snX] := by
  refine ⟨by decide, rfl, ?_, by decide⟩
  intro hs
  have hco : claimOrder snB snA :=
    (List.sorted_cons.mp hs).1 snA (by simp)
  have hba : ¬ (("b" : String) ≤ "a") := by
    have hab : ("a" : String) < "b" := by
      rw [String.lt_iff_toList_lt]
      decide
    exact not_le.mpr hab
  rcases hco with hlt | ⟨-, hle⟩
  · exact absurd hlt (by decide)
  · exact hba hle

/-- C3 counterexample: replaying an identical `SETUP_EXIT` command does not
yield the same `CommandResponse` — the first application answers success, the
replay answers `success = false` ("client already exists"). -/
theorem handleSetupExit_replay_differs :
    (handleSetupExitCommand true upExit setupCmd 0).1.success = true
    ∧ (handleSetupExitCommand true
        (handleSetupExitCommand true upExit setupCmd 0).2 setupCmd 0).1.success
        = false
    ∧ (handleSetupExitCommand true
        (handleSetupExitCommand true upExit setupCmd 0).2 setupCmd 0).1
        ≠ (handleSetupExitCommand true upExit setupCmd 0).1 := by
  refine ⟨by decide, by decide, by decide⟩

/-- C3 amended: replaying `SETUP_EXIT` for a client id that is already in the
exit's active set has no side effect on the receiver (state is unchanged: no
allocation, no peer addition, no map insert), but the `CommandResponse`
differs from the original one — it reports failure, "client already exists". -/
theorem handleSetupExit_replay_no_side_effects (wgAddOk : Bool) (st : UPState)
    (cmd : Command) (now : Nat) (ci : ClientInfo)
    (hmode : (st.mode == PeerMode.exit || st.mode == PeerMode.hybrid) = true)
    (hcid : (((mapLookup cmd.payload "client_id").getD "") == "") = false)
    (hpk : (((mapLookup cmd.payload "client_pubkey").getD "") == "") = false)
    (hsid : (((mapLookup cmd.payload "session_id").getD "") == "") = false)
    (hex : mapLookup st.activeClients
      ((mapLookup cmd.payload "client_id").getD "") = some ci) :
    handleSetupExitCommand wgAddOk st cmd now =
      (⟨cmd.commandId, false,
        "Failed to add client: " ++
          ("client " ++ (mapLookup cmd.payload "client_id").getD "" ++
            " already exists"), []⟩, st) := by
  unfold handleSetupExitCommand addClient
  simp [hmode, hcid, hpk, hsid, hex]

/-- C3 witness: the replay theorem applied to an exit peer that already
serves client "c1". -/
theorem handleSetupExit_replay_no_side_effects_witness :
    handleSetupExitCommand true upExitB setupCmd 5 =
      (⟨setupCmd.commandId, false,
        "Failed to add client: " ++
          ("client " ++ (mapLookup setupCmd.payload "client_id").getD "" ++
            " already exists"), []⟩, upExitB) :=
  handleSetupExit_replay_no_side_effects true upExitB setupCmd 5 ciExisting
    (by decide) (by decide) (by decide) (by decide) (by decide)

/-- C4 counterexample: `RequestExitPeer` replies success although the
SuperNode has received no `CommandResponse` whatsoever (its response log is
empty) — it does not wait for the exit peer's matching response. -/
theorem RequestExitPeer_success_without_response :
    (RequestExitPeer snStateC4 (fun _ => true) "c1" 0 0 "10.0.0.5"
      51820).1.success = true
    ∧ snStateC4.receivedResponses = [] := by
  exact ⟨by decide, rfl⟩

/-- C4 amended: `RequestExitPeer` issues a `SETUP_EXIT` command (with payload
client_id / session_id / allowed_ips) to the first exit-or-hybrid peer and,
when the stream send succeeds, replies success immediately; the reply is
independent of which `CommandResponse` messages have been received. -/
theorem RequestExitPeer_replies_immediately (st : SuperNodeState)
    (sendOk : String → Bool) (clientId : String) (nowUnix nowNano : Nat)
    (publicIP : String) (relayPort : Nat) (sel : StreamInfo)
    (rest : List StreamInfo)
    (hsel : GetStreamsByRole st.sm "exit" ++ GetStreamsByRole st.sm "hybrid" =
      sel :: rest)
    (hsend : sendOk sel.peerID = true) :
    RequestExitPeer st sendOk clientId nowUnix nowNano publicIP relayPort =
      (⟨true, "Exit peer allocated successfully",
        some ⟨sel.peerID, sel.publicKey,
          publicIP ++ ":" ++ toString relayPort, ["0.0.0.0/0"], false⟩,
        clientId ++ "-" ++ sel.peerID ++ "-" ++ toString nowUnix⟩,
       some ⟨"setup-exit-" ++ toString nowNano, CommandType.SETUP_EXIT,
        [("client_id", clientId),
         ("session_id",
           clientId ++ "-" ++ sel.peerID ++ "-" ++ toString nowUnix),
         ("allowed_ips", "0.0.0.0/0")]⟩)
    ∧ (∀ rs : List (String × CommandResponse),
        RequestExitPeer ⟨st.sm, rs⟩ sendOk clientId nowUnix nowNano publicIP
          relayPort =
          RequestExitPeer st sendOk clientId nowUnix nowNano publicIP
            relayPort) := by
  constructor
  · unfold RequestExitPeer
    rw [hsel]
    simp [hsend]
  · intro rs
    rfl

/-- C4 witness: the immediate-reply theorem applied to the one-exit-peer
SuperNode. -/
theorem RequestExitPeer_replies_immediately_witness :
    RequestExitPeer snStateC4 (fun _ => true) "c1" 3 9 "10.0.0.5" 51820 =
      (⟨true, "Exit peer allocated successfully",
        some ⟨siExit.peerID, siExit.publicKey,
          "10.0.0.5" ++ ":" ++ toString 51820, ["0.0.0.0/0"], false⟩,
        "c1" ++ "-" ++ siExit.peerID ++ "-" ++ toString 3⟩,
       some ⟨"setup-exit-" ++ toString 9, CommandType.SETUP_EXIT,
        [("client_id", "c1"),
         ("session_id", "c1" ++ "-" ++ siExit.peerID ++ "-" ++ toString 3),
         ("allowed_ips", "0.0.0.0/0")]⟩)
    ∧ (∀ rs : List (String × CommandResponse),
        RequestExitPeer ⟨snStateC4.sm, rs⟩ (fun _ => true) "c1" 3 9 "10.0.0.5"
          51820 =
          RequestExitPeer snStateC4 (fun _ => true) "c1" 3 9 "10.0.0.5"
            51820) :=
  RequestExitPeer_replies_immediately snStateC4 (fun _ => true) "c1" 3 9
    "10.0.0.5" 51820 siExit [] (by decide) rfl

/-- C9: when adding the WireGuard peer fails after the address was allocated,
both the exit peer's `addClient` and the relay dataplane's
`SetupRelayForClient` release the address and record nothing: the resulting
state equals the starting state. -/
theorem addClient_and_relay_rollback (stU : UPState) (cid pk sid : String)
    (now : Nat) (ip : Nat) (stW : WDState) (cid2 pk2 sid2 : String)
    (ip2 : Nat)
    (h1 : mapLookup stU.activeClients cid = none)
    (h2 : stU.pool.allocateIP.1 = some ip)
    (h3 : stW.activePeers.find? (fun e => e.2.clientID == cid2) = none)
    (h4 : stW.pool.allocateIP.1 = some ip2) :
    addClient false stU cid pk sid now =
      (Except.error "failed to add peer to WireGuard", stU)
    ∧ SetupRelayForClient false stW cid2 pk2 sid2 = (none, stW) := by
  constructor
  · have hpair : stU.pool.allocateIP = (some ip, stU.pool.allocateIP.2) := by
      rw [← h2]
    unfold addClient
    rw [hpair]
    simp only [h1, Option.isSome_none, Bool.false_eq_true, if_false]
    rw [allocate_release_roundtrip h2]
  · have hpair : stW.pool.allocateIP = (some ip2, stW.pool.allocateIP.2) := by
      rw [← h4]
    unfold SetupRelayForClient
    rw [h3, hpair]
    simp only [Bool.false_eq_true, if_false]
    rw [allocate_release_roundtrip h4]

/-- C9 witness: the rollback theorem applied to an empty exit peer and an
empty relay dataplane. -/
theorem addClient_and_relay_rollback_witness :
    addClient false upExit "c1" "k1" "s1" 0 =
      (Except.error "failed to add peer to WireGuard", upExit)
    ∧ SetupRelayForClient false wdEmpty "c2" "k2" "s2" = (none, wdEmpty) :=
  addClient_and_relay_rollback upExit "c1" "k1" "s1" 0 (ipv4 10 9 0 1)
    wdEmpty "c2" "k2" "s2" 1 (by decide) (by decide) (by decide) (by decide)

/-- C1: evaluation at the failing trace. After peer "p" reconnects, the new
session "p-200" is the one active session; but when the replaced stream's
handler terminates and runs its deferred `UnregisterStream("p")`, the removal
is keyed only by peer id and deletes the new session, leaving the peer with
no active session — the newly registered session does not remain active. -/
theorem unregister_after_replacement_drops_new_session :
    smReg2.streams.length = 1
    ∧ (GetStream smReg2 "p").map (fun si => si.sessionID) = some "p-200"
    ∧ GetStream (UnregisterStream smReg2 "p") "p" = none := by
  refine ⟨by decide, by decide, by decide⟩

end MyDvpn
